import Mathlib

/-!
Shallow embedding of `SonicCMS/TensorRT/plugins/HcalPhase1Reconstructor.cc`.

The embedding models the per-channel charge correction (`RawChargeFromSample`
generic template and its `QIE11DataFrame` specialization), the batch-building
loop `processData`, the `acquire` phase (buffer allocation and `tmp->clear()`)
and the `produce` phase of `HcalPhase1Reconstructor`.

External collaborators (the calibration database `HcalDbService`, the QIE
coder `adc2fC`, the SiPM nonlinearity table) are modelled at their interface
boundary as function-valued fields of a conditions record; `double` values are
modelled as rationals.  Machine exceptions (`throw cms::Exception`) are
modelled with `Except String`.  Writes into the flat input buffer `iInput`
are recorded as an ordered trace of (index, value) pairs so that the index
arithmetic of the source is preserved exactly.
-/

set_option autoImplicit false

namespace HcalPhase1

/-- Subdetector kinds of `HcalSubdetector` relevant to the filter at
lines 186-190 of the source. -/
inductive HcalSubdetector where
  | HcalEmpty
  | HcalBarrel
  | HcalEndcap
  | HcalOuter
  | HcalForward
  | HcalTriggerTower
  deriving DecidableEq, Repr

/-- `HcalDetId`: channel identity (subdetector, ieta, iphi, depth). -/
structure HcalDetId where
  subdet : HcalSubdetector
  ieta : Int
  iphi : Int
  depth : Nat
  deriving DecidableEq, Repr

/-- One time-slice sample of a QIE11 data frame: raw ADC code and capacitor
index (`capid`), as read at lines 212-214 of the source. -/
structure QIE11Sample where
  adc : Nat
  capid : Nat
  deriving DecidableEq, Repr

/-- A QIE11 digi frame: channel id plus the ordered sample sequence. -/
structure QIE11DataFrame where
  id : HcalDetId
  samples : List QIE11Sample
  deriving DecidableEq, Repr

/-- `frame[ts].capid()`: capid of the sample at time slice `ts`. -/
def QIE11DataFrame.capid (f : QIE11DataFrame) (ts : Nat) : Nat :=
  (f.samples.getD ts ⟨0, 0⟩).capid

/-- Interface slice of `HcalCalibrations`: pedestal indexed by capid. -/
structure HcalCalibrations where
  pedestal : Nat → ℚ

/-- Interface slice of the external conditions service `HcalDbService`:
per-channel calibrations, the SiPM fC-per-photoelectron factor
(`getHcalSiPMParameter(id)->getFCByPE()`), the per-channel nonlinearity
correction `getRecoCorrectionFactor` (SiPM type lookup folded in), and the
coder decoding `adc2fC` producing the `CaloSamples` charge sequence. -/
structure HcalDbService where
  calib : HcalDetId → HcalCalibrations
  fcByPE : HcalDetId → ℚ
  recoCorrectionFactor : HcalDetId → ℚ → ℚ
  adc2fC : QIE11DataFrame → List ℚ

/-- `HBHEChannelInfo::MAXSAMPLES` (external constant, value 10). -/
def MAXSAMPLES : Int := 10

/-- `const int soi = 3;` at line 204 of the source. -/
def soiConst : Int := 3

/-- `const int nCycles = 8;` at line 205 of the source. -/
def nCycles : Nat := 8

/-- The time-slice indices visited by the integration loop
`for (int ts = firstTS; ts < lastTS; ++ts)` at line 93 of the source. -/
def windowIndices (firstTS lastTS : Int) : List Int :=
  (List.range (lastTS - firstTS).toNat).map (fun k : Nat => firstTS + (k : Int))

/-- The integrated pedestal-subtracted charge `sipmQ` accumulated by the
loop at lines 93-97: the sum of `cs[ts] - calib.pedestal(frame[ts].capid())`
over the window. -/
def windowSum (calib : HcalCalibrations) (cs : List ℚ) (frame : QIE11DataFrame)
    (firstTS lastTS : Int) : ℚ :=
  ((windowIndices firstTS lastTS).map
    (fun ts => cs.getD ts.toNat 0 - calib.pedestal (frame.capid ts.toNat))).sum

/-- The `RawChargeFromSample<QIE11DataFrame>` corrector instance: the single
correction factor `factor_` computed in the constructor. -/
structure RawChargeFromSampleQIE11 where
  factor : ℚ
  deriving DecidableEq, Repr

/-- Constructor of `RawChargeFromSample<QIE11DataFrame>` (lines 71-101):
fails with the `HBHEPhase1BadDB` exception when the fC/PE factor is
non-positive; otherwise computes the integration window, the integrated
charge, `effectivePixelsFired`, and caches the correction factor. -/
def mkRawChargeQIE11 (sipmQTSShift sipmQNTStoSum : Int) (cond : HcalDbService)
    (id : HcalDetId) (cs : List ℚ) (soi : Int) (frame : QIE11DataFrame)
    (maxTS : Int) : Except String RawChargeFromSampleQIE11 :=
  let fcByPE := cond.fcByPE id
  if fcByPE ≤ 0 then
    Except.error "HBHEPhase1BadDB: Invalid fC/PE conversion factor for SiPM"
  else
    let calib := cond.calib id
    let firstTS := max (soi + sipmQTSShift) 0
    let lastTS := min (firstTS + sipmQNTStoSum) maxTS
    let sipmQ := windowSum calib cs frame firstTS lastTS
    let effectivePixelsFired := sipmQ / fcByPE
    Except.ok ⟨cond.recoCorrectionFactor id effectivePixelsFired⟩

/-- `getRawCharge` of the QIE11 specialization (lines 103-112):
`(decodedCharge - pedestal)*factor_ + pedestal`. -/
def RawChargeFromSampleQIE11.getRawCharge (r : RawChargeFromSampleQIE11)
    (decodedCharge pedestal : ℚ) : ℚ :=
  (decodedCharge - pedestal) * r.factor + pedestal

/-- The generic (legacy HPD/QIE8) `RawChargeFromSample` corrector: its
constructor body is empty, so the instance carries no state. -/
structure RawChargeFromSampleLegacy where
  deriving DecidableEq, Repr

/-- Constructor of the generic `RawChargeFromSample` template (lines 54-61):
an empty body that consults none of its arguments and cannot fail; it is
given the same `Except` shape as the QIE11 constructor for comparison. -/
def mkRawChargeLegacy (sipmQTSShift sipmQNTStoSum : Int) (cond : HcalDbService)
    (id : HcalDetId) (cs : List ℚ) (soi : Int) (frame : QIE11DataFrame)
    (maxTS : Int) : Except String RawChargeFromSampleLegacy :=
  Except.ok ⟨⟩

/-- `getRawCharge` of the generic template (lines 63-65):
`return decodedCharge;`. -/
def RawChargeFromSampleLegacy.getRawCharge (r : RawChargeFromSampleLegacy)
    (decodedCharge pedestal : ℚ) : ℚ :=
  decodedCharge

/-- `HBHERecHit(id, energy, time, timeFalling)` as used at lines 226 and
239 of the source. -/
structure HBHERecHit where
  id : HcalDetId
  energy : ℚ
  time : ℚ
  timeFalling : ℚ
  deriving DecidableEq, Repr

/-- The channel filter at lines 186-190: admit only HcalBarrel, HcalEndcap
and HcalOuter. -/
def admitChannel (subdet : HcalSubdetector) : Bool :=
  subdet == HcalSubdetector.HcalBarrel || subdet == HcalSubdetector.HcalEndcap ||
    subdet == HcalSubdetector.HcalOuter

/-- The eight charge writes of the loop at lines 211-217:
`iInput[ib*ninput + inputTS + 2] = rawCharge(inputTS)` for
`inputTS = 0, ..., nCycles-1`. -/
def chargeWrites (ninput ib : Nat) (raw : Nat → ℚ) : List (Nat × ℚ) :=
  (List.range nCycles).map (fun inputTS => (ib * ninput + inputTS + 2, raw inputTS))

/-- The eta/phi writes at lines 219-220: `iInput[ib + 0] = cell.ieta();`
`iInput[ib + 1] = cell.iphi();` — note the indices are NOT scaled by
`ninput` in the source. -/
def metadataWrites (ib : Nat) (cell : HcalDetId) : List (Nat × ℚ) :=
  [(ib + 0, (cell.ieta : ℚ)), (ib + 1, (cell.iphi : ℚ))]

/-- The depth-encoding writes of the loop at lines 221-224:
`iInput[ib*ninput + d + 10] = (depth == (float)d) ? 1 : 0` for
`d = 1, ..., 4`, where `depth` is the (never assigned) member variable
`float depth` of the producer, modelled here as the value `depthMember`. -/
def depthWrites (ninput ib : Nat) (depthMember : ℚ) : List (Nat × ℚ) :=
  (List.range 4).map (fun k =>
    (ib * ninput + (k + 1) + 10, if depthMember = ((k + 1 : Nat) : ℚ) then 1 else 0))

/-- One iteration of the loop body of `processData` (lines 177-228) for the
frame at collection position `ib` (the source shadows its outer counter with
`unsigned int ib = std::distance(coll.begin(), it)`, so `ib` here is the
position of the frame in the whole collection).  Returns the buffer writes of
this iteration and the rec hits pushed into `tmp`, or the propagated
exception of the corrector constructor. -/
def processChannel (sipmQTSShift sipmQNTStoSum : Int) (cond : HcalDbService)
    (depthMember : ℚ) (ninput ib : Nat) (frame : QIE11DataFrame) :
    Except String (List (Nat × ℚ) × List HBHERecHit) :=
  let cell := frame.id
  if !(admitChannel cell.subdet) then Except.ok ([], [])
  else
    let calib := cond.calib cell
    let cs := cond.adc2fC frame
    let nRead : Int := cs.length
    let maxTS : Int := min nRead MAXSAMPLES
    match mkRawChargeQIE11 sipmQTSShift sipmQNTStoSum cond cell cs soiConst
        frame maxTS with
    | Except.error e => Except.error e
    | Except.ok rcfs =>
      let raw : Nat → ℚ := fun inputTS =>
        rcfs.getRawCharge (cs.getD inputTS 0) (calib.pedestal (frame.capid inputTS))
      Except.ok
        (chargeWrites ninput ib raw ++ metadataWrites ib cell ++
          depthWrites ninput ib depthMember,
         [HBHERecHit.mk cell 0 0 0])

/-- The loop of `processData` (lines 177-228) over the tail of the digi
collection starting at collection position `ib`: concatenates the write
traces and `tmp` pushes of the iterations, propagating the first
exception. -/
def processFrom (sipmQTSShift sipmQNTStoSum : Int) (cond : HcalDbService)
    (depthMember : ℚ) (ninput : Nat) :
    Nat → List QIE11DataFrame → Except String (List (Nat × ℚ) × List HBHERecHit)
  | _, [] => Except.ok ([], [])
  | ib, frame :: rest =>
    match processChannel sipmQTSShift sipmQNTStoSum cond depthMember ninput ib
        frame with
    | Except.error e => Except.error e
    | Except.ok (ws1, t1) =>
      match processFrom sipmQTSShift sipmQNTStoSum cond depthMember ninput
          (ib + 1) rest with
      | Except.error e => Except.error e
      | Except.ok (ws2, t2) => Except.ok (ws1 ++ ws2, t1 ++ t2)

/-- Size of the flat input buffer allocated at lines 150-152:
`iInput = Input(ninput*batchSize, 0.f)`. -/
def inputBufferSize (ninput batchSize : Nat) : Nat :=
  ninput * batchSize

/-- The `acquire` phase (lines 148-164): allocates the zeroed input buffer of
size `inputBufferSize ninput batchSize`, clears `tmp` (discarding `prevTmp`,
the `tmp` contents left from any earlier cycle), and runs `processData` over
the digi collection from collection position 0. -/
def acquire (sipmQTSShift sipmQNTStoSum : Int) (cond : HcalDbService)
    (depthMember : ℚ) (digis : List QIE11DataFrame) (ninput batchSize : Nat)
    (prevTmp : List HBHERecHit) :
    Except String (List (Nat × ℚ) × List HBHERecHit) :=
  let clearedTmp : List HBHERecHit := []
  match processFrom sipmQTSShift sipmQNTStoSum cond depthMember ninput 0 digis with
  | Except.error e => Except.error e
  | Except.ok (ws, appended) => Except.ok (ws, clearedTmp ++ appended)

/-- The `produce` phase (lines 230-245): one output rec hit per entry of
`tmp`, in order, built as `HBHERecHit(it->id(), 0.5, 0.f, 0.f)`; the
inference output `iOutput` is never read. -/
def produce (tmp : List HBHERecHit) (iOutput : List ℚ) : List HBHERecHit :=
  tmp.map (fun it => HBHERecHit.mk it.id (1 / 2) 0 0)

/-- One full cycle: `acquire` (which aborts the cycle when the corrector
constructor throws) followed by `produce` on the `tmp` ledger built during
acquisition.  When `acquire` throws, `produce` is never reached and no
record is emitted. -/
def runCycle (sipmQTSShift sipmQNTStoSum : Int) (cond : HcalDbService)
    (depthMember : ℚ) (digis : List QIE11DataFrame) (ninput batchSize : Nat)
    (prevTmp : List HBHERecHit) (iOutput : List ℚ) :
    Except String (List HBHERecHit) :=
  match acquire sipmQTSShift sipmQNTStoSum cond depthMember digis ninput
      batchSize prevTmp with
  | Except.error e => Except.error e
  | Except.ok (_, tmp) => Except.ok (produce tmp iOutput)

/-- Spec-side description (for claim C10, per §3 invariant 1 and §4.6 of the
spec): the identities of the channels admitted by the filter, in collection
order. -/
def admittedIds (digis : List QIE11DataFrame) : List HcalDetId :=
  (digis.filter (fun f => admitChannel f.id.subdet)).map (fun f => f.id)

/-- A concrete conditions service for evaluation: zero pedestals, fC/PE
factor 1, nonlinearity correction identically 1, and a coder that decodes
each ADC count to its numeric value. -/
def condEx : HcalDbService :=
  ⟨fun _ => ⟨fun _ => 0⟩, fun _ => 1, fun _ _ => 1,
   fun f => f.samples.map (fun s => (s.adc : ℚ))⟩

/-- A conditions service whose fC/PE factor is zero (bad calibration). -/
def condBad : HcalDbService :=
  ⟨fun _ => ⟨fun _ => 0⟩, fun _ => 0, fun _ _ => 1,
   fun f => f.samples.map (fun s => (s.adc : ℚ))⟩

/-- An admitted (barrel) channel: ieta 5, iphi 7, depth 1, ten samples of
ADC 4. -/
def frameA : QIE11DataFrame :=
  ⟨⟨HcalSubdetector.HcalBarrel, 5, 7, 1⟩, List.replicate 10 ⟨4, 0⟩⟩

/-- A second admitted (barrel) channel: ieta 3, iphi 11, depth 2, ten
samples of ADC 6. -/
def frameB : QIE11DataFrame :=
  ⟨⟨HcalSubdetector.HcalBarrel, 3, 11, 2⟩, List.replicate 10 ⟨6, 1⟩⟩

/-- A forward channel, rejected by the filter at lines 186-190. -/
def frameF : QIE11DataFrame :=
  ⟨⟨HcalSubdetector.HcalForward, 9, 2, 1⟩, List.replicate 10 ⟨4, 0⟩⟩

/-- Fallback rec hit used with `List.getD` in index-wise statements. -/
def defaultRH : HBHERecHit :=
  ⟨⟨HcalSubdetector.HcalEmpty, 0, 0, 0⟩, 0, 0, 0⟩

/-- C9: for the legacy frame kind, `getRawCharge` is an identity
pass-through (`correct(x, p) = x` for all decoded charge `x` and pedestal
`p`), and the legacy corrector's construction succeeds for every input —
in particular it consults no SiPM parameter of the conditions service and
can never raise the bad-calibration error. -/
theorem C9_legacy_identity_passthrough :
    ∀ (r : RawChargeFromSampleLegacy) (x p : ℚ), r.getRawCharge x p = x ∧
      ∀ (shift n : Int) (cond : HcalDbService) (id : HcalDetId) (cs : List ℚ)
        (soi : Int) (frame : QIE11DataFrame) (maxTS : Int),
        mkRawChargeLegacy shift n cond id cs soi frame maxTS = Except.ok ⟨⟩ :=
  fun _ _ _ => ⟨rfl, fun _ _ _ _ _ _ _ _ => rfl⟩

/-- C5: every emitted record of the output-construction path carries the
fixed placeholder scalars (energy 0.5, time 0, timeFalling 0), identical
for all records and all inputs, and `produce` is entirely independent of
the inference output `iOutput`. -/
theorem C5_placeholder_discards_output :
    ∀ (tmp : List HBHERecHit) (out1 out2 : List ℚ),
      produce tmp out1 = produce tmp out2 ∧
      (produce tmp out1).map HBHERecHit.energy = tmp.map (fun _ => (1 / 2 : ℚ)) ∧
      (produce tmp out1).map HBHERecHit.time = tmp.map (fun _ => (0 : ℚ)) ∧
      (produce tmp out1).map HBHERecHit.timeFalling = tmp.map (fun _ => (0 : ℚ)) := by
  intro tmp o1 o2
  refine ⟨rfl, ?_, ?_, ?_⟩
  all_goals
    induction tmp with
    | nil => rfl
    | cons a t ih => simpa [produce] using ih

/-- C4 counterexample: on a one-entry ledger, `produce` emits the same
record whether the inference output row is 42 or 99, and the emitted
scalar is the constant 1/2, not the value of BatchOutput row 0 — so the
record's derived scalars are not taken from BatchOutput row 0. -/
theorem C4_output_scalars_counterexample :
    produce [HBHERecHit.mk ⟨HcalSubdetector.HcalBarrel, 5, 7, 1⟩ 0 0 0] [(42 : ℚ)]
        = produce [HBHERecHit.mk ⟨HcalSubdetector.HcalBarrel, 5, 7, 1⟩ 0 0 0]
            [(99 : ℚ)] ∧
      (produce [HBHERecHit.mk ⟨HcalSubdetector.HcalBarrel, 5, 7, 1⟩ 0 0 0]
          [(42 : ℚ)]).map HBHERecHit.energy = [(1 / 2 : ℚ)] ∧
      (1 / 2 : ℚ) ≠ 42 :=
  ⟨rfl, by simp [produce], by norm_num⟩

/-- C4 (amended): the result-construction phase emits exactly one record
per ledger entry, in ledger order without reordering, deduplication or
reindexing, and record `i` carries the identity of ledger entry `i`; its
scalars, however, are the fixed placeholder (0.5, 0, 0), not values taken
from BatchOutput. -/
theorem C4_one_record_per_ledger_entry :
    ∀ (tmp : List HBHERecHit) (iOutput : List ℚ),
      (produce tmp iOutput).length = tmp.length ∧
      ∀ i : Nat, i < tmp.length →
        (produce tmp iOutput).getD i defaultRH
          = HBHERecHit.mk (tmp.getD i defaultRH).id (1 / 2) 0 0 := by
  intro tmp o
  refine ⟨by simp [produce], ?_⟩
  intro i hi
  induction tmp generalizing i with
  | nil => exact absurd hi (by simp)
  | cons a t ih =>
    cases i with
    | zero => rfl
    | succ j => exact ih j (Nat.lt_of_succ_lt_succ hi)

/-- Witness for C4 (amended) at a concrete one-entry ledger. -/
theorem C4_one_record_per_ledger_entry_witness :
    0 < 1 ∧
    (produce [HBHERecHit.mk ⟨HcalSubdetector.HcalBarrel, 5, 7, 1⟩ 0 0 0]
        [(42 : ℚ)]).getD 0 defaultRH
      = HBHERecHit.mk ⟨HcalSubdetector.HcalBarrel, 5, 7, 1⟩ (1 / 2) 0 0 :=
  ⟨by decide,
   (C4_one_record_per_ledger_entry
       [HBHERecHit.mk ⟨HcalSubdetector.HcalBarrel, 5, 7, 1⟩ 0 0 0]
       [(42 : ℚ)]).2 0 (by decide)⟩

/-- C1 evaluation at the failing input (two admitted channels, `ninput`
15): the second channel's eta (value 3) is written at flat index 1 — on
top of the first channel's phi — instead of at its row's metadata slot
`1*ninput + 0 = 15`; indices 15 and 16 (row 1's eta/phi slots) are never
written; and the depth slot `1*ninput + 2 + 10 = 27` encoding the second
channel's true depth 2 receives 0, because the one-hot comparison uses the
never-assigned member `depth` (here 7), not the channel's depth. -/
theorem C1_metadata_misplaced_eval :
    (processFrom 0 2 condEx 7 15 0 [frameA, frameB]).toOption.map (fun r =>
        (r.1.filter (fun w => w.1 == 1),
         r.1.filter (fun w => 15 ≤ w.1 && w.1 ≤ 16),
         r.1.filter (fun w => w.1 == 27)))
      = some ([(1, (7 : ℚ)), (1, 3)], [], [(27, 0)]) := by
  decide

/-- C2 evaluation at the failing input (a rejected forward channel
followed by an admitted barrel channel, `ninput` 15): the ledger gets
exactly one entry, but the single admitted channel is laid out at row 1
(its first charge write is at index `1*15 + 0 + 2 = 17`) while row 0's
interior slots 5..14 stay untouched — row 0 is skipped because the row
counter is the position in the full collection, not the count of admitted
channels. -/
theorem C2_row_index_skipped_eval :
    (processFrom 0 2 condEx 7 15 0 [frameF, frameA]).toOption.map (fun r =>
        (r.2.length,
         (r.1.map Prod.fst).filter (fun i => i == 17),
         (r.1.map Prod.fst).filter (fun i => 5 ≤ i && i ≤ 14)))
      = some (1, [17], []) := by
  decide

/-- C3 evaluation at the failing input (`batchSize` 1, `ninput` 15, two
admitted channels): `acquire` returns successfully — no capacity error of
any kind — while the write trace contains indices at or beyond the
allocated buffer size `inputBufferSize 15 1 = 15`: a silent out-of-bounds
write. -/
theorem C3_silent_overrun_eval :
    (acquire 0 2 condEx 7 [frameA, frameB] 15 1 []).toOption.map (fun r =>
        r.1.any (fun w => inputBufferSize 15 1 ≤ w.1))
      = some true := by
  decide

/-- `processChannel` raises an exception exactly when the channel is
admitted by the filter and its fC/PE factor is non-positive. -/
theorem processChannel_error_iff (shift n : Int) (cond : HcalDbService) (dm : ℚ)
    (ninput ib : Nat) (frame : QIE11DataFrame) :
    (∃ e, processChannel shift n cond dm ninput ib frame = Except.error e) ↔
      admitChannel frame.id.subdet = true ∧ cond.fcByPE frame.id ≤ 0 := by
  unfold processChannel mkRawChargeQIE11
  cases hadm : admitChannel frame.id.subdet with
  | false => simp [hadm]
  | true =>
    by_cases hfc : cond.fcByPE frame.id ≤ 0
    · simp [hadm, hfc]
    · simp [hadm, hfc]

/-- A channel that is rejected, or admitted with a positive fC/PE factor,
is processed without an exception. -/
theorem processChannel_ok_of_good (shift n : Int) (cond : HcalDbService) (dm : ℚ)
    (ninput ib : Nat) (frame : QIE11DataFrame)
    (h : ¬(admitChannel frame.id.subdet = true ∧ cond.fcByPE frame.id ≤ 0)) :
    ∃ r, processChannel shift n cond dm ninput ib frame = Except.ok r := by
  cases hp : processChannel shift n cond dm ninput ib frame with
  | error e =>
    exact absurd ((processChannel_error_iff shift n cond dm ninput ib frame).mp
      ⟨e, hp⟩) h
  | ok r => exact ⟨r, rfl⟩

/-- If some admitted channel of the collection has a non-positive fC/PE
factor, the batch-building loop propagates an exception. -/
theorem processFrom_error_of_bad (shift n : Int) (cond : HcalDbService) (dm : ℚ)
    (ninput : Nat) :
    ∀ (digis : List QIE11DataFrame) (ib : Nat),
      (∃ f, f ∈ digis ∧ admitChannel f.id.subdet = true ∧ cond.fcByPE f.id ≤ 0) →
      ∃ e, processFrom shift n cond dm ninput ib digis = Except.error e := by
  intro digis
  induction digis with
  | nil =>
    rintro ib ⟨f, hf, -, -⟩
    exact absurd hf (List.not_mem_nil f)
  | cons a rest ih =>
    rintro ib ⟨f, hf, hadm, hfc⟩
    rcases List.mem_cons.mp hf with rfl | hf2
    · obtain ⟨e, he⟩ := (processChannel_error_iff shift n cond dm ninput ib f).mpr
        ⟨hadm, hfc⟩
      exact ⟨e, by simp [processFrom, he]⟩
    · cases hh : processChannel shift n cond dm ninput ib a with
      | error e => exact ⟨e, by simp [processFrom, hh]⟩
      | ok r =>
        obtain ⟨ws1, t1⟩ := r
        obtain ⟨e, he⟩ := ih (ib + 1) ⟨f, hf2, hadm, hfc⟩
        exact ⟨e, by simp [processFrom, hh, he]⟩

/-- If every admitted channel of the collection has a positive fC/PE
factor, the batch-building loop completes without an exception. -/
theorem processFrom_ok_of_good (shift n : Int) (cond : HcalDbService) (dm : ℚ)
    (ninput : Nat) :
    ∀ (digis : List QIE11DataFrame) (ib : Nat),
      (∀ f, f ∈ digis → admitChannel f.id.subdet = true → 0 < cond.fcByPE f.id) →
      ∃ r, processFrom shift n cond dm ninput ib digis = Except.ok r := by
  intro digis
  induction digis with
  | nil => exact fun ib _ => ⟨([], []), rfl⟩
  | cons a rest ih =>
    intro ib hgood
    obtain ⟨⟨ws1, t1⟩, h1⟩ := processChannel_ok_of_good shift n cond dm ninput ib a
      (by
        rintro ⟨hadm, hfc⟩
        exact absurd hfc (not_le.mpr (hgood a (List.mem_cons_self a rest) hadm)))
    obtain ⟨⟨ws2, t2⟩, h2⟩ := ih (ib + 1)
      (fun f hf => hgood f (List.mem_cons_of_mem a hf))
    exact ⟨(ws1 ++ ws2, t1 ++ t2), by simp [processFrom, h1, h2]⟩

/-- C6: if any admitted SiPM channel of the cycle has a non-positive fC/PE
factor, the corrector constructor's bad-calibration exception propagates
and aborts the whole cycle — the cycle ends in an error and no result
record is emitted; if every admitted channel has a positive factor, no
such error is raised and the cycle completes. -/
theorem C6_bad_calibration_aborts_cycle :
    ∀ (shift n : Int) (cond : HcalDbService) (dm : ℚ)
      (digis : List QIE11DataFrame) (ninput batchSize : Nat)
      (prevTmp : List HBHERecHit) (iOutput : List ℚ),
      ((∃ f, f ∈ digis ∧ admitChannel f.id.subdet = true ∧ cond.fcByPE f.id ≤ 0) →
        ∃ e, runCycle shift n cond dm digis ninput batchSize prevTmp iOutput
          = Except.error e) ∧
      ((∀ f, f ∈ digis → admitChannel f.id.subdet = true → 0 < cond.fcByPE f.id) →
        ∃ recs, runCycle shift n cond dm digis ninput batchSize prevTmp iOutput
          = Except.ok recs) := by
  intro shift n cond dm digis ninput batchSize prevTmp iOutput
  constructor
  · intro hbad
    obtain ⟨e, he⟩ := processFrom_error_of_bad shift n cond dm ninput digis 0 hbad
    exact ⟨e, by simp [runCycle, acquire, he]⟩
  · intro hgood
    obtain ⟨⟨ws, tmp⟩, hok⟩ :=
      processFrom_ok_of_good shift n cond dm ninput digis 0 hgood
    exact ⟨produce tmp iOutput, by simp [runCycle, acquire, hok]⟩

/-- Witness for C6: with a zero fC/PE factor the concrete cycle errors out;
with factor 1 it completes. -/
theorem C6_bad_calibration_aborts_cycle_witness :
    (∃ e, runCycle 0 2 condBad 7 [frameA] 15 1 [] [] = Except.error e) ∧
    (∃ recs, runCycle 0 2 condEx 7 [frameA] 15 1 [] [] = Except.ok recs) :=
  ⟨(C6_bad_calibration_aborts_cycle 0 2 condBad 7 [frameA] 15 1 [] []).1
      ⟨frameA, by decide, by decide, by decide⟩,
   (C6_bad_calibration_aborts_cycle 0 2 condEx 7 [frameA] 15 1 [] []).2
      (fun f hf hadm => by
        have hfa : f = frameA := List.mem_singleton.mp hf
        subst hfa
        decide)⟩

/-- C7: for an admitted SiPM channel with valid calibration, the corrector
constructor computes, once, the factor
`recoCorrectionFactor(windowSum / fcByPE)` — `effectivePixelsFired` being
the pedestal-subtracted window sum divided by the fC/PE factor — caches it
in the instance, and every per-time-slice correction then equals
`(decodedCharge − pedestal) × factor + pedestal` using only that cached
factor. -/
theorem C7_factor_cached_once :
    ∀ (shift n : Int) (cond : HcalDbService) (id : HcalDetId) (cs : List ℚ)
      (soi : Int) (frame : QIE11DataFrame) (maxTS : Int),
      0 < cond.fcByPE id →
      ∃ r, mkRawChargeQIE11 shift n cond id cs soi frame maxTS = Except.ok r ∧
        r.factor = cond.recoCorrectionFactor id
          (windowSum (cond.calib id) cs frame (max (soi + shift) 0)
              (min (max (soi + shift) 0 + n) maxTS) / cond.fcByPE id) ∧
        ∀ x p : ℚ, r.getRawCharge x p = (x - p) * r.factor + p := by
  intro shift n cond id cs soi frame maxTS h
  refine ⟨⟨cond.recoCorrectionFactor id
      (windowSum (cond.calib id) cs frame (max (soi + shift) 0)
        (min (max (soi + shift) 0 + n) maxTS) / cond.fcByPE id)⟩,
    ?_, rfl, fun x p => rfl⟩
  simp [mkRawChargeQIE11, not_le.mpr h]

/-- Witness for C7 at a concrete channel. -/
theorem C7_factor_cached_once_witness :
    (0 : ℚ) < condEx.fcByPE frameA.id ∧
    ∃ r, mkRawChargeQIE11 0 2 condEx frameA.id (condEx.adc2fC frameA) soiConst
        frameA (min ((condEx.adc2fC frameA).length : Int) MAXSAMPLES)
        = Except.ok r ∧
      r.factor = condEx.recoCorrectionFactor frameA.id
        (windowSum (condEx.calib frameA.id) (condEx.adc2fC frameA) frameA
            (max (soiConst + 0) 0) (min (max (soiConst + 0) 0 + 2)
              (min ((condEx.adc2fC frameA).length : Int) MAXSAMPLES))
          / condEx.fcByPE frameA.id) ∧
      ∀ x p : ℚ, r.getRawCharge x p = (x - p) * r.factor + p :=
  ⟨by decide,
   C7_factor_cached_once 0 2 condEx frameA.id (condEx.adc2fC frameA) soiConst
     frameA (min ((condEx.adc2fC frameA).length : Int) MAXSAMPLES) (by decide)⟩

/-- Membership in the integration-window index list is exactly the
half-open interval `[firstTS, lastTS)`. -/
theorem mem_windowIndices {firstTS lastTS t : Int} :
    t ∈ windowIndices firstTS lastTS ↔ firstTS ≤ t ∧ t < lastTS := by
  unfold windowIndices
  rw [List.mem_map]
  constructor
  · rintro ⟨k, hk, rfl⟩
    rw [List.mem_range] at hk
    omega
  · rintro ⟨h1, h2⟩
    refine ⟨(t - firstTS).toNat, ?_, ?_⟩
    · rw [List.mem_range]; omega
    · omega

/-- C8: the integration window `[firstTS, lastTS)` with
`firstTS = max(soi + shift, 0)` and `lastTS = min(firstTS + n, maxTS)`
only visits time slices `t` with `0 ≤ t < maxTS` — never a sample at or
beyond `maxTS`; and whenever `firstTS ≥ maxTS` the window is empty, the
summed charge is zero, and (for a valid fC/PE factor) the constructor
returns normally with `effectivePixelsFired = 0` — no division by zero, no
exception. -/
theorem C8_window_clamped :
    ∀ (shift n soi maxTS : Int),
      (∀ t, t ∈ windowIndices (max (soi + shift) 0)
          (min (max (soi + shift) 0 + n) maxTS) → 0 ≤ t ∧ t < maxTS) ∧
      (maxTS ≤ max (soi + shift) 0 →
        windowIndices (max (soi + shift) 0)
            (min (max (soi + shift) 0 + n) maxTS) = [] ∧
        (∀ (calib : HcalCalibrations) (cs : List ℚ) (frame : QIE11DataFrame),
          windowSum calib cs frame (max (soi + shift) 0)
            (min (max (soi + shift) 0 + n) maxTS) = 0) ∧
        ∀ (cond : HcalDbService) (id : HcalDetId) (cs : List ℚ)
          (frame : QIE11DataFrame),
          0 < cond.fcByPE id →
          mkRawChargeQIE11 shift n cond id cs soi frame maxTS
            = Except.ok ⟨cond.recoCorrectionFactor id 0⟩) := by
  intro shift n soi maxTS
  constructor
  · intro t ht
    obtain ⟨h1, h2⟩ := mem_windowIndices.mp ht
    exact ⟨le_trans (le_max_right _ _) h1,
      lt_of_lt_of_le h2 (min_le_right _ _)⟩
  · intro hge
    have hz : (min (max (soi + shift) 0 + n) maxTS - max (soi + shift) 0).toNat
        = 0 := by
      have h2 : min (max (soi + shift) 0 + n) maxTS ≤ maxTS := min_le_right _ _
      exact Int.toNat_of_nonpos (by linarith)
    refine ⟨?_, ?_, ?_⟩
    · simp [windowIndices, hz]
    · intro calib cs frame
      simp [windowSum, windowIndices, hz]
    · intro cond id cs frame hfc
      have hw : windowSum (cond.calib id) cs frame (max (soi + shift) 0)
          (min (max (soi + shift) 0 + n) maxTS) = 0 := by
        simp [windowSum, windowIndices, hz]
      simp [mkRawChargeQIE11, not_le.mpr hfc, hw]

/-- Witness for C8: a populated window stays below `maxTS`, and a shift of
20 pushes `firstTS = 23` past `maxTS = 10`, emptying the window while the
constructor still succeeds with `effectivePixelsFired = 0`. -/
theorem C8_window_clamped_witness :
    ((0 : Int) ≤ 3 ∧ (3 : Int) < 10) ∧
    windowIndices (max (3 + 20) 0) (min (max (3 + 20) 0 + 2) 10) = [] ∧
    mkRawChargeQIE11 20 2 condEx frameA.id (condEx.adc2fC frameA) 3 frameA 10
      = Except.ok ⟨condEx.recoCorrectionFactor frameA.id 0⟩ :=
  ⟨(C8_window_clamped 0 2 3 10).1 3 (by decide),
   ((C8_window_clamped 20 2 3 10).2 (by decide)).1,
   ((C8_window_clamped 20 2 3 10).2 (by decide)).2.2 condEx frameA.id
     (condEx.adc2fC frameA) frameA (by decide)⟩

/-- The rec hits pushed by one loop iteration carry exactly the channel's
identity when it is admitted, and nothing otherwise. -/
theorem processChannel_tmp_ids (shift n : Int) (cond : HcalDbService) (dm : ℚ)
    (ninput ib : Nat) (frame : QIE11DataFrame) (ws : List (Nat × ℚ))
    (t : List HBHERecHit)
    (h : processChannel shift n cond dm ninput ib frame = Except.ok (ws, t)) :
    t.map HBHERecHit.id
      = if admitChannel frame.id.subdet then [frame.id] else [] := by
  simp only [processChannel] at h
  split at h
  next hadm =>
    have hadm' : admitChannel frame.id.subdet = false := by simpa using hadm
    simp only [Except.ok.injEq, Prod.mk.injEq] at h
    obtain ⟨-, rfl⟩ := h
    simp [hadm']
  next hadm =>
    have hadm' : admitChannel frame.id.subdet = true := by simpa using hadm
    split at h
    next e heq => exact absurd h (by simp)
    next rcfs heq =>
      simp only [Except.ok.injEq, Prod.mk.injEq] at h
      obtain ⟨-, rfl⟩ := h
      simp [hadm']

/-- The `tmp` ledger built by the batch-building loop lists, in order, the
identities of exactly the admitted channels of the collection. -/
theorem processFrom_tmp_ids (shift n : Int) (cond : HcalDbService) (dm : ℚ)
    (ninput : Nat) :
    ∀ (digis : List QIE11DataFrame) (ib : Nat) (ws : List (Nat × ℚ))
      (tmp : List HBHERecHit),
      processFrom shift n cond dm ninput ib digis = Except.ok (ws, tmp) →
      tmp.map HBHERecHit.id = admittedIds digis := by
  intro digis
  induction digis with
  | nil =>
    intro ib ws tmp h
    simp only [processFrom, Except.ok.injEq, Prod.mk.injEq] at h
    obtain ⟨-, rfl⟩ := h
    simp [admittedIds]
  | cons a rest ih =>
    intro ib ws tmp h
    simp only [processFrom] at h
    split at h
    next e heq => exact absurd h (by simp)
    next ws1 t1 heq =>
      split at h
      next e heq2 => exact absurd h (by simp)
      next ws2 t2 heq2 =>
        simp only [Except.ok.injEq, Prod.mk.injEq] at h
        obtain ⟨-, rfl⟩ := h
        have h1 := processChannel_tmp_ids shift n cond dm ninput ib a ws1 t1 heq
        have h2 := ih (ib + 1) ws2 t2 heq2
        by_cases hadm : admitChannel a.id.subdet
        · simp [admittedIds, List.filter_cons, hadm] at h1 ⊢
          simp [h1, h2, admittedIds]
        · simp [admittedIds, List.filter_cons, hadm] at h1 ⊢
          simp [h1, h2, admittedIds]

/-- C10: the per-cycle identity ledger is cleared at the start of every
acquisition, so a cycle's outcome is independent of whatever `tmp`
contents an earlier cycle left behind, and the records emitted by a
completed cycle correspond one-to-one, in order and in identity, to
exactly the channels admitted during that cycle's acquisition. -/
theorem C10_cleared_ledger_no_carry_over :
    ∀ (shift n : Int) (cond : HcalDbService) (dm : ℚ)
      (digis : List QIE11DataFrame) (ninput batchSize : Nat)
      (prev1 prev2 : List HBHERecHit) (iOutput : List ℚ),
      runCycle shift n cond dm digis ninput batchSize prev1 iOutput
        = runCycle shift n cond dm digis ninput batchSize prev2 iOutput ∧
      ∀ recs, runCycle shift n cond dm digis ninput batchSize prev1 iOutput
          = Except.ok recs →
        recs.map HBHERecHit.id = admittedIds digis := by
  intro shift n cond dm digis ninput batchSize prev1 prev2 iOutput
  refine ⟨rfl, ?_⟩
  intro recs h
  unfold runCycle acquire at h
  split at h
  next e heq => exact absurd h (by simp)
  next ws tmp heq =>
    simp only [Except.ok.injEq] at h
    split at heq
    next e heq2 => exact absurd heq (by simp)
    next ws' tmp' heq2 =>
      simp only [Except.ok.injEq, Prod.mk.injEq] at heq
      obtain ⟨-, rfl⟩ := heq
      have hids := processFrom_tmp_ids shift n cond dm ninput digis 0 ws' tmp' heq2
      subst h
      simpa [produce] using hids

/-- Witness for C10 at a concrete cycle with stale prior ledger contents:
the emitted identities are exactly the admitted channel. -/
theorem C10_cleared_ledger_no_carry_over_witness :
    ([HBHERecHit.mk ⟨HcalSubdetector.HcalBarrel, 5, 7, 1⟩ (1 / 2) 0 0]).map
        HBHERecHit.id = admittedIds [frameA] :=
  (C10_cleared_ledger_no_carry_over 0 2 condEx 7 [frameA] 15 1
      [HBHERecHit.mk ⟨HcalSubdetector.HcalOuter, 9, 9, 9⟩ 3 3 3] [] []).2
    [HBHERecHit.mk ⟨HcalSubdetector.HcalBarrel, 5, 7, 1⟩ (1 / 2) 0 0] (by rfl)

end HcalPhase1
